import Mathlib

/-!
# Verification of the embedded grid-based survival game

Shallow embedding of the entity-simulation engine found in
`src/scripts/index.js` (the "Vampire Survivors" mini-game): entity model,
movement system, collision system, spawn director, render differ and the
game-loop state machine.

Modelling conventions:
* JavaScript numbers are modelled as exact rationals (`ℚ`); all the
  arithmetic the claims depend on (addition, subtraction, multiplication,
  division, comparison, `Math.max`/`Math.min`/`Math.abs`/`Math.floor`)
  is exact on the rational inputs used here.
* `Math.sqrt` is abstracted as an explicit function parameter
  `sqrtf : ℚ → ℚ`; theorems quantify over it, and each concrete witness
  passes a function that agrees with the real square root on the (perfect
  square) arguments at which that witness evaluates it.
* The knockback's `Math.cos(Math.atan2(b, a))` / `Math.sin(Math.atan2(b, a))`
  composition is likewise abstracted as parameters `knx kny : ℚ → ℚ → ℚ`.
* `Math.random()` draws are passed in as oracle parameters (`side`, `r`).
* `performance.now()` timestamps are passed in as `now : ℚ` parameters.
-/

namespace VampireSim

/-! ## Game constants (src/scripts/index.js lines 295-312) -/

def CANVAS_WIDTH : ℕ := 30
def CANVAS_HEIGHT : ℕ := 15
def PLAYER_SPEED : ℚ := 8 / 1000
def ENEMY_SPEED : ℚ := 2 / 1000
def PROJECTILE_SPEED : ℚ := 3 / 100
def ATTACK_COOLDOWN : ℚ := 350
def PLAYER_MAX_HP : ℤ := 100
def ENEMY_DAMAGE : ℤ := 10
def WAVE_DURATION : ℚ := 20000
def BASE_SPAWN_RATE : ℚ := 2000
def MIN_SPAWN_RATE : ℚ := 500

def CHAR_EMPTY : String := ""
def CHAR_PLAYER : String := "🧛"
def CHAR_ENEMY : String := "🧟"
def CHAR_PROJECTILE : String := "🔥"
def CHAR_XP : String := "💎"

/-! ## Entity records (class `Entity` and subclasses, lines 324-489)

Each record carries the fields its JS class holds; the `char` glyph is
fixed by the constructor of each class. -/

structure JPlayer where
  x : ℚ
  y : ℚ
  char : String
  hp : ℤ
  lastAttack : ℚ
  lastDirX : ℚ
  lastDirY : ℚ
  invincible : Bool
  invincibleTimer : ℚ
deriving DecidableEq

/-- `new Player(x, y)` (lines 343-350). -/
def mkPlayer (x y : ℚ) : JPlayer :=
  { x := x, y := y, char := CHAR_PLAYER, hp := PLAYER_MAX_HP, lastAttack := 0,
    lastDirX := 1, lastDirY := 0, invincible := false, invincibleTimer := 0 }

structure JEnemy where
  x : ℚ
  y : ℚ
  char : String
  hp : ℤ
  active : Bool
deriving DecidableEq

/-- `new Enemy(x, y)` (lines 429-432): hp starts at 1, active. -/
def mkEnemy (x y : ℚ) : JEnemy :=
  { x := x, y := y, char := CHAR_ENEMY, hp := 1, active := true }

structure JProjectile where
  x : ℚ
  y : ℚ
  char : String
  vx : ℚ
  vy : ℚ
  lifetime : ℚ
  active : Bool
deriving DecidableEq

/-- `new Projectile(x, y, vx, vy)` (lines 461-468): velocity normalised by
`Math.sqrt` (abstracted as `sqrtf`), lifetime 3000 ms. -/
def mkProjectile (sqrtf : ℚ → ℚ) (x y vx vy : ℚ) : JProjectile :=
  let len := sqrtf (vx * vx + vy * vy)
  { x := x, y := y, char := CHAR_PROJECTILE,
    vx := if 0 < len then vx / len * PROJECTILE_SPEED else PROJECTILE_SPEED,
    vy := if 0 < len then vy / len * PROJECTILE_SPEED else 0,
    lifetime := 3000, active := true }

structure JXPGem where
  x : ℚ
  y : ℚ
  char : String
  value : ℤ
  active : Bool
deriving DecidableEq

/-- `new XPGem(x, y)` (lines 485-489). -/
def mkXPGem (x y : ℚ) : JXPGem :=
  { x := x, y := y, char := CHAR_XP, value := 10, active := true }

/-! ## MovementSystem -/

/-- The key-state mapping read by `Player.handleInput`
(`keys['KeyW'] || keys['ArrowUp']` etc.). -/
structure Keys where
  keyW : Bool
  keyS : Bool
  keyA : Bool
  keyD : Bool
  arrowUp : Bool
  arrowDown : Bool
  arrowLeft : Bool
  arrowRight : Bool

/-- `Player.handleInput(keys, dt)` (lines 352-380): accumulate a direction
from the pressed keys, normalise diagonals by `Math.sqrt` (`sqrtf`), move by
`PLAYER_SPEED * dt`, clamp to `[0, W-1] × [0, H-1]`, remember the last
non-zero direction. -/
def JPlayer.handleInput (p : JPlayer) (sqrtf : ℚ → ℚ) (keys : Keys) (dt : ℚ) : JPlayer :=
  let dx0 : ℚ := 0
  let dy0 : ℚ := 0
  let dy1 := if keys.keyW || keys.arrowUp then dy0 - 1 else dy0
  let dy2 := if keys.keyS || keys.arrowDown then dy1 + 1 else dy1
  let dx1 := if keys.keyA || keys.arrowLeft then dx0 - 1 else dx0
  let dx2 := if keys.keyD || keys.arrowRight then dx1 + 1 else dx1
  let d : ℚ × ℚ :=
    if dx2 ≠ 0 ∧ dy2 ≠ 0 then
      let len := sqrtf (dx2 * dx2 + dy2 * dy2)
      (dx2 / len, dy2 / len)
    else (dx2, dy2)
  let x1 := p.x + d.1 * PLAYER_SPEED * dt
  let y1 := p.y + d.2 * PLAYER_SPEED * dt
  let x2 := max 0 (min ((CANVAS_WIDTH : ℚ) - 1) x1)
  let y2 := max 0 (min ((CANVAS_HEIGHT : ℚ) - 1) y1)
  let ld : ℚ × ℚ := if d.1 ≠ 0 ∨ d.2 ≠ 0 then (d.1, d.2) else (p.lastDirX, p.lastDirY)
  { p with x := x2, y := y2, lastDirX := ld.1, lastDirY := ld.2 }

/-- `Player.update(dt)` (lines 382-390): tick down the invincibility timer;
clear the flag once it reaches zero. -/
def JPlayer.update (p : JPlayer) (dt : ℚ) : JPlayer :=
  if p.invincible then
    let t := p.invincibleTimer - dt
    if t ≤ 0 then { p with invincibleTimer := t, invincible := false }
    else { p with invincibleTimer := t }
  else p

/-- `Player.takeDamage(amount)` (lines 392-400): returns the updated player
and whether damage was applied. -/
def JPlayer.takeDamage (p : JPlayer) (amount : ℤ) : JPlayer × Bool :=
  if p.invincible then (p, false)
  else ({ p with hp := p.hp - amount, invincible := true, invincibleTimer := 500 }, true)

/-- `Enemy.update(dt, player)` (lines 434-448): seek the player when farther
than 0.5, then clamp to bounds (the clamp runs unconditionally). -/
def JEnemy.update (e : JEnemy) (sqrtf : ℚ → ℚ) (player : JPlayer) (dt : ℚ) : JEnemy :=
  let dx := player.x - e.x
  let dy := player.y - e.y
  let dist := sqrtf (dx * dx + dy * dy)
  let mv : ℚ × ℚ :=
    if 1/2 < dist then
      (e.x + dx / dist * ENEMY_SPEED * dt, e.y + dy / dist * ENEMY_SPEED * dt)
    else (e.x, e.y)
  { e with x := max 0 (min ((CANVAS_WIDTH : ℚ) - 1) mv.1),
           y := max 0 (min ((CANVAS_HEIGHT : ℚ) - 1) mv.2) }

/-- `Enemy.takeDamage()` (lines 450-457): decrement hp; deactivate and
report death when hp reaches 0. -/
def JEnemy.takeDamage (e : JEnemy) : JEnemy × Bool :=
  let hp := e.hp - 1
  if hp ≤ 0 then ({ e with hp := hp, active := false }, true)
  else ({ e with hp := hp }, false)

/-- `Projectile.update(dt)` (lines 470-481): straight-line travel; the
position is NOT clamped — the projectile is deactivated once it leaves
`[0, W) × [0, H)` or its lifetime runs out. -/
def JProjectile.update (p : JProjectile) (dt : ℚ) : JProjectile :=
  let x := p.x + p.vx * dt
  let y := p.y + p.vy * dt
  let lifetime := p.lifetime - dt
  let active :=
    if x < 0 ∨ (CANVAS_WIDTH : ℚ) ≤ x ∨ y < 0 ∨ (CANVAS_HEIGHT : ℚ) ≤ y ∨ lifetime ≤ 0
    then false else p.active
  { p with x := x, y := y, lifetime := lifetime, active := active }

/-! ## CollisionSystem (`VampireGame.checkCollisions`, lines 730-788)

The three pairwise phases run in source order: player × hostiles,
projectiles × hostiles, player × pickups.  The source first filters each
group down to the entities active at phase start and re-checks `active`
inside the loops; since this pass is the only place those flags change,
that is modelled by skipping entities whose flag is unset at the moment
they are examined. -/

/-- One iteration of the player × hostiles loop (lines 741-753).  `px py`
are the player coordinates cached before the loop.  `knx a b` / `kny a b`
abstract `Math.cos(Math.atan2(b, a))` / `Math.sin(Math.atan2(b, a))` used
by the knockback. -/
def peStep (knx kny : ℚ → ℚ → ℚ) (px py : ℚ)
    (acc : JPlayer × List JEnemy) (e : JEnemy) : JPlayer × List JEnemy :=
  if e.active = true ∧ |px - e.x| < 4/5 ∧ |py - e.y| < 4/5 then
    let r := acc.1.takeDamage ENEMY_DAMAGE
    if r.2 then
      (r.1, acc.2 ++ [{ e with x := e.x + knx (e.x - px) (e.y - py) * 2,
                               y := e.y + kny (e.x - px) (e.y - py) * 2 }])
    else (r.1, acc.2 ++ [e])
  else (acc.1, acc.2 ++ [e])

/-- The player × hostiles phase. -/
def playerEnemiesPhase (knx kny : ℚ → ℚ → ℚ) (p : JPlayer) (es : List JEnemy) :
    JPlayer × List JEnemy :=
  es.foldl (peStep knx kny p.x p.y) (p, [])

/-- Scan of the hostile list by one projectile at `(px, py)` (inner loop of
lines 757-774): the first hostile that is still active and within the 0.8
axis-aligned threshold takes one damage; the scan stops there (`break`). -/
def projHitScan (px py : ℚ) : List JEnemy → List JEnemy × ℤ × List JXPGem × Bool
  | [] => ([], 0, [], false)
  | e :: es =>
    if e.active = true ∧ |px - e.x| < 4/5 ∧ |py - e.y| < 4/5 then
      let r := e.takeDamage
      (r.1 :: es, if r.2 then 10 else 0, if r.2 then [mkXPGem e.x e.y] else [], true)
    else
      let rest := projHitScan px py es
      (e :: rest.1, rest.2.1, rest.2.2.1, rest.2.2.2)

/-- The projectiles × hostiles loop (lines 757-775), threading the hostile
list, the score and the pickup list through each projectile in order.  A
projectile whose scan hit anything is deactivated. -/
def projectilesLoop : List JProjectile → List JEnemy → ℤ → List JXPGem →
    List JProjectile × List JEnemy × ℤ × List JXPGem
  | [], es, score, gems => ([], es, score, gems)
  | pr :: ps, es, score, gems =>
    if pr.active = true then
      let r := projHitScan pr.x pr.y es
      let pr2 := if r.2.2.2 then { pr with active := false } else pr
      let rest := projectilesLoop ps r.1 (score + r.2.1) (gems ++ r.2.2.1)
      (pr2 :: rest.1, rest.2.1, rest.2.2.1, rest.2.2.2)
    else
      let rest := projectilesLoop ps es score gems
      (pr :: rest.1, rest.2.1, rest.2.2.1, rest.2.2.2)

/-- The projectiles × hostiles phase with the guard of line 756: it is
skipped when either active set is empty. -/
def projectilesPhase (ps : List JProjectile) (es : List JEnemy) (score : ℤ)
    (gems : List JXPGem) : List JProjectile × List JEnemy × ℤ × List JXPGem :=
  if 0 < ps.countP (·.active) ∧ 0 < es.countP (·.active) then
    projectilesLoop ps es score gems
  else (ps, es, score, gems)

/-- One iteration of the player × pickups loop (lines 779-787): a still
active gem within the 1.5 threshold is collected (deactivated, its value
added to the score). -/
def gemStep (px py : ℚ) (acc : List JXPGem × ℤ) (g : JXPGem) : List JXPGem × ℤ :=
  if g.active = true ∧ |px - g.x| < 3/2 ∧ |py - g.y| < 3/2 then
    (acc.1 ++ [{ g with active := false }], acc.2 + g.value)
  else (acc.1 ++ [g], acc.2)

def gemPhase (p : JPlayer) (gems : List JXPGem) (score : ℤ) : List JXPGem × ℤ :=
  gems.foldl (gemStep p.x p.y) ([], score)

/-- `VampireGame.checkCollisions` (lines 730-788): the three phases in
source order. -/
def checkCollisions (knx kny : ℚ → ℚ → ℚ) (p : JPlayer) (es : List JEnemy)
    (ps : List JProjectile) (gems : List JXPGem) (score : ℤ) :
    JPlayer × List JEnemy × List JProjectile × List JXPGem × ℤ :=
  let pe := playerEnemiesPhase knx kny p es
  let pj := projectilesPhase ps pe.2 score gems
  let gp := gemPhase pe.1 pj.2.2.2 pj.2.2.1
  (pe.1, pj.2.1, pj.1, gp.1, gp.2)

/-! ## SpawnDirector (`VampireGame.updateWave`, lines 794-813, and
`VampireGame.spawnEnemy`, lines 815-841) -/

/-- `spawnRate` of line 806 as a function of the wave number. -/
def spawnRate (w : ℤ) : ℚ := max MIN_SPAWN_RATE (BASE_SPAWN_RATE - ((w : ℚ) - 1) * 150)

/-- `maxEnemies` of line 807 as a function of the wave number. -/
def maxEnemies (w : ℤ) : ℤ := 3 + (w - 1) * 2

/-- The wave/spawn timer state owned by the game (wave number, the two
timers, the per-wave spawn counter, and the hostile array whose length
gates spawning). -/
structure DirectorState where
  wave : ℤ
  waveTimer : ℚ
  spawnTimer : ℚ
  enemiesSpawnedThisWave : ℕ
  enemies : List JEnemy
deriving DecidableEq

/-- Lines 795-803 of `updateWave`: advance both timers by `dt`; on reaching
the wave duration, increment the wave, zero the wave timer and the per-wave
spawn counter. -/
def waveCheck (st : DirectorState) (dt : ℚ) : DirectorState :=
  if WAVE_DURATION ≤ st.waveTimer + dt then
    { st with wave := st.wave + 1, waveTimer := 0, enemiesSpawnedThisWave := 0,
              spawnTimer := st.spawnTimer + dt }
  else { st with waveTimer := st.waveTimer + dt, spawnTimer := st.spawnTimer + dt }

/-- `VampireGame.spawnEnemy` (lines 815-841): the two `Math.random()` draws
are passed in as oracles — `side` is the already floored edge index
(`Math.floor(Math.random() * 4)` ∈ {0,1,2,3}) and `r` the position draw in
`[0,1)`.  The final catch-all arm is unreachable for `side < 4`. -/
def spawnPos (side : ℕ) (r : ℚ) : ℚ × ℚ :=
  match side with
  | 0 => (r * (CANVAS_WIDTH : ℚ), 0)
  | 1 => ((CANVAS_WIDTH : ℚ) - 1, r * (CANVAS_HEIGHT : ℚ))
  | 2 => (r * (CANVAS_WIDTH : ℚ), (CANVAS_HEIGHT : ℚ) - 1)
  | 3 => (0, r * (CANVAS_HEIGHT : ℚ))
  | _ => (0, 0)

def spawnEnemy (st : DirectorState) (side : ℕ) (r : ℚ) : DirectorState :=
  { st with enemies := st.enemies ++ [mkEnemy (spawnPos side r).1 (spawnPos side r).2],
            enemiesSpawnedThisWave := st.enemiesSpawnedThisWave + 1 }

/-- Lines 806-812 of `updateWave`: spawn exactly when the spawn timer has
reached the current interval AND the hostile array length is below
`maxEnemies * 2`; on spawning, reset the spawn timer. -/
def spawnStep (st : DirectorState) (side : ℕ) (r : ℚ) : DirectorState :=
  if spawnRate st.wave ≤ st.spawnTimer ∧
      (st.enemies.length : ℤ) < maxEnemies st.wave * 2 then
    { spawnEnemy st side r with spawnTimer := 0 }
  else st

/-- `VampireGame.updateWave(dt)` (lines 794-813). -/
def updateWave (st : DirectorState) (dt : ℚ) (side : ℕ) (r : ℚ) : DirectorState :=
  spawnStep (waveCheck st dt) side r

/-- Iterating `updateWave` over a sequence of ticks, each carrying its `dt`
and the tick's two random draws. -/
def runDirector (st : DirectorState) (ticks : List (ℚ × ℕ × ℚ)) : DirectorState :=
  ticks.foldl (fun s t => updateWave s t.1 t.2.1 t.2.2) st

/-! ## RenderDiffer (`VampireGame.render`, lines 847-909) -/

structure Cell where
  char : String
  cls : String
deriving DecidableEq

/-- The empty/background cell every frame starts from. -/
def emptyCell : Cell := { char := CHAR_EMPTY, cls := "game-empty" }

def cellAt (g : List (List Cell)) (x y : ℕ) : Cell := (g.getD y []).getD x emptyCell

def setCell (g : List (List Cell)) (x y : ℕ) (c : Cell) : List (List Cell) :=
  g.set y ((g.getD y []).set x c)

/-- Draw one entity: floor the continuous position to a grid cell and paint
it if it lies on the grid (entities off-grid are skipped). -/
def drawAt (g : List (List Cell)) (qx qy : ℚ) (c : Cell) : List (List Cell) :=
  let gx := ⌊qx⌋
  let gy := ⌊qy⌋
  if 0 ≤ gx ∧ gx < (CANVAS_WIDTH : ℤ) ∧ 0 ≤ gy ∧ gy < (CANVAS_HEIGHT : ℤ) then
    setCell g gx.toNat gy.toNat c
  else g

/-- Lines 848-890 of `render`: build the current frame — empty grid, then
pickups, projectiles, hostiles and the player last; an invincible player
blinks on a 100 ms real-time period (`now` abstracts `performance.now()`;
JS `%` is truncated remainder, `Int.tmod`). -/
def buildGrid (gems : List JXPGem) (projs : List JProjectile) (enemies : List JEnemy)
    (player : JPlayer) (now : ℚ) : List (List Cell) :=
  let g0 := List.replicate CANVAS_HEIGHT (List.replicate CANVAS_WIDTH emptyCell)
  let g1 := gems.foldl (fun g gem => drawAt g gem.x gem.y { char := gem.char, cls := "game-xp" }) g0
  let g2 := projs.foldl (fun g pr => drawAt g pr.x pr.y { char := pr.char, cls := "game-projectile" }) g1
  let g3 := enemies.foldl (fun g e => drawAt g e.x e.y { char := e.char, cls := "game-enemy" }) g2
  let showPlayer := (!player.invincible) || decide ((⌊now / 100⌋).tmod 2 = 0)
  if showPlayer then drawAt g3 player.x player.y { char := player.char, cls := "game-player" }
  else g3

/-- Lines 893-908 of `render`: the surface-writes issued — one per cell
whose glyph or style class differs from the previous frame. -/
def diffWrites (cur prev : List (List Cell)) : List (ℕ × ℕ × Cell) :=
  (List.range CANVAS_HEIGHT).flatMap (fun y =>
    (List.range CANVAS_WIDTH).filterMap (fun x =>
      if (cellAt cur x y).char ≠ (cellAt prev x y).char ∨
          (cellAt cur x y).cls ≠ (cellAt prev x y).cls
      then some (x, y, cellAt cur x y) else none))

/-- Lines 893-908 of `render`: the previous-frame store after the pass; the
source overwrites exactly the changed cells, leaving the rest in place. -/
def updatePrevGrid (cur prev : List (List Cell)) : List (List Cell) :=
  (List.range CANVAS_HEIGHT).map (fun y =>
    (List.range CANVAS_WIDTH).map (fun x =>
      if (cellAt cur x y).char ≠ (cellAt prev x y).char ∨
          (cellAt cur x y).cls ≠ (cellAt prev x y).cls
      then cellAt cur x y else cellAt prev x y))

/-! ## GameLoop state machine (lines 495-662) -/

inductive GState where
  | idle
  | playing
  | paused
  | gameover
deriving DecidableEq

/-- The mutable game-instance state the lifecycle methods touch: the state
label, the player, the three entity arrays, the stats/timers, the timestamp
base and whether a next tick is scheduled (`animationId`). -/
structure VampireState where
  state : GState
  player : JPlayer
  enemies : List JEnemy
  projectiles : List JProjectile
  xpGems : List JXPGem
  wave : ℤ
  score : ℤ
  waveTimer : ℚ
  spawnTimer : ℚ
  enemiesSpawnedThisWave : ℕ
  lastTimestamp : ℚ
  animationId : Bool
deriving DecidableEq

/-- `VampireGame.start()` (lines 581-596): a no-op when already playing;
otherwise set the state, reset the timestamp base (`now` abstracts
`performance.now()`) and schedule the loop. -/
def startGame (g : VampireState) (now : ℚ) : VampireState :=
  if g.state = GState.playing then g
  else { g with state := GState.playing, lastTimestamp := now, animationId := true }

/-- `VampireGame.pause()` (lines 598-609): a no-op unless playing;
otherwise set the state to paused and cancel the scheduled tick. -/
def pauseGame (g : VampireState) : VampireState :=
  if g.state ≠ GState.playing then g
  else { g with state := GState.paused, animationId := false }

/-- `VampireGame.resume()` (lines 611-621): a no-op unless paused;
otherwise set the state back to playing, reset the timestamp base and
reschedule the loop. -/
def resumeGame (g : VampireState) (now : ℚ) : VampireState :=
  if g.state ≠ GState.paused then g
  else { g with state := GState.playing, lastTimestamp := now, animationId := true }

end VampireSim

namespace VampireSim

/-! ## C1: bounds after movement -/

theorem clamp_bounds (lo hi x : ℚ) (h : lo ≤ hi) :
    lo ≤ max lo (min hi x) ∧ max lo (min hi x) ≤ hi :=
  ⟨le_max_left _ _, max_le h (min_le_left _ _)⟩

/-- C1 (amended): after the movement phase, the player's and every
hostile's position is clamped into `[0, W-1] × [0, H-1]`; a projectile's
position is not clamped — the update merely deactivates a projectile that
left `[0, W) × [0, H)`, so a still-active projectile satisfies the strict
bounds `0 ≤ x < W`, `0 ≤ y < H` but may exceed `W-1` (resp. `H-1`). -/
theorem movement_bounds :
    (∀ (p : JPlayer) (sqrtf : ℚ → ℚ) (keys : Keys) (dt : ℚ),
      0 ≤ (p.handleInput sqrtf keys dt).x ∧
      (p.handleInput sqrtf keys dt).x ≤ (CANVAS_WIDTH : ℚ) - 1 ∧
      0 ≤ (p.handleInput sqrtf keys dt).y ∧
      (p.handleInput sqrtf keys dt).y ≤ (CANVAS_HEIGHT : ℚ) - 1) ∧
    (∀ (e : JEnemy) (sqrtf : ℚ → ℚ) (pl : JPlayer) (dt : ℚ),
      0 ≤ (e.update sqrtf pl dt).x ∧
      (e.update sqrtf pl dt).x ≤ (CANVAS_WIDTH : ℚ) - 1 ∧
      0 ≤ (e.update sqrtf pl dt).y ∧
      (e.update sqrtf pl dt).y ≤ (CANVAS_HEIGHT : ℚ) - 1) ∧
    (∀ (pr : JProjectile) (dt : ℚ),
      (pr.update dt).active = true →
      0 ≤ (pr.update dt).x ∧ (pr.update dt).x < (CANVAS_WIDTH : ℚ) ∧
      0 ≤ (pr.update dt).y ∧ (pr.update dt).y < (CANVAS_HEIGHT : ℚ)) := by
  refine ⟨?_, ?_, ?_⟩
  · intro p sqrtf keys dt
    have hw : (0 : ℚ) ≤ (CANVAS_WIDTH : ℚ) - 1 := by norm_num [CANVAS_WIDTH]
    have hh : (0 : ℚ) ≤ (CANVAS_HEIGHT : ℚ) - 1 := by norm_num [CANVAS_HEIGHT]
    refine ⟨?_, ?_, ?_, ?_⟩ <;> simp only [JPlayer.handleInput]
    · exact (clamp_bounds _ _ _ hw).1
    · exact (clamp_bounds _ _ _ hw).2
    · exact (clamp_bounds _ _ _ hh).1
    · exact (clamp_bounds _ _ _ hh).2
  · intro e sqrtf pl dt
    have hw : (0 : ℚ) ≤ (CANVAS_WIDTH : ℚ) - 1 := by norm_num [CANVAS_WIDTH]
    have hh : (0 : ℚ) ≤ (CANVAS_HEIGHT : ℚ) - 1 := by norm_num [CANVAS_HEIGHT]
    refine ⟨?_, ?_, ?_, ?_⟩ <;> simp only [JEnemy.update]
    · exact (clamp_bounds _ _ _ hw).1
    · exact (clamp_bounds _ _ _ hw).2
    · exact (clamp_bounds _ _ _ hh).1
    · exact (clamp_bounds _ _ _ hh).2
  · intro pr dt h
    simp only [JProjectile.update] at h ⊢
    by_cases hc : pr.x + pr.vx * dt < 0 ∨ (CANVAS_WIDTH : ℚ) ≤ pr.x + pr.vx * dt ∨
        pr.y + pr.vy * dt < 0 ∨ (CANVAS_HEIGHT : ℚ) ≤ pr.y + pr.vy * dt ∨
        pr.lifetime - dt ≤ 0
    · rw [if_pos hc] at h
      exact absurd h (by simp)
    · push_neg at hc
      exact ⟨hc.1, hc.2.1, hc.2.2.1, hc.2.2.2.1⟩

/-- C1 counterexample: a projectile fired rightwards from (28, 7) and
updated with dt = 50 ms moves to x = 29.5: it is still active (29.5 < 30)
yet violates the claimed bound x ≤ W - 1 = 29.  The sqrt oracle
`fun q => 1` agrees with `Math.sqrt` at the only argument the constructor
evaluates it on (1·1 + 0·0 = 1). -/
theorem projectile_exceeds_w_minus_one :
    ((mkProjectile (fun _q => 1) 28 7 1 0).update 50).active = true ∧
    ¬ ((mkProjectile (fun _q => 1) 28 7 1 0).update 50).x ≤ (CANVAS_WIDTH : ℚ) - 1 := by
  constructor <;>
    norm_num [mkProjectile, JProjectile.update, CANVAS_WIDTH, CANVAS_HEIGHT, PROJECTILE_SPEED]

/-- Witness for the amended C1 theorem: at the same concrete projectile the
still-active conclusion bounds evaluate as claimed. -/
theorem movement_bounds_witness :
    0 ≤ ((mkProjectile (fun _q => 1) 28 7 1 0).update 50).x ∧
    ((mkProjectile (fun _q => 1) 28 7 1 0).update 50).x < (CANVAS_WIDTH : ℚ) ∧
    0 ≤ ((mkProjectile (fun _q => 1) 28 7 1 0).update 50).y ∧
    ((mkProjectile (fun _q => 1) 28 7 1 0).update 50).y < (CANVAS_HEIGHT : ℚ) :=
  movement_bounds.2.2 (mkProjectile (fun _q => 1) 28 7 1 0) 50
    (by norm_num [mkProjectile, JProjectile.update, CANVAS_WIDTH, CANVAS_HEIGHT,
          PROJECTILE_SPEED])

/-! ## C2: invincibility window -/

/-- `Player.update` never changes hp. -/
theorem playerUpdate_hp (p : JPlayer) (dt : ℚ) : (p.update dt).hp = p.hp := by
  simp only [JPlayer.update]
  split
  · split <;> rfl
  · rfl

theorem playerUpdate_foldl_hp (dts : List ℚ) (p : JPlayer) :
    (dts.foldl JPlayer.update p).hp = p.hp := by
  induction dts generalizing p with
  | nil => rfl
  | cons d rest ih => simpa [playerUpdate_hp] using ih (p.update d)

/-- While the cumulative elapsed time stays strictly below the remaining
invincibility, the flag stays set and the timer counts down exactly. -/
theorem playerUpdate_foldl_invincible (dts : List ℚ) (p : JPlayer)
    (hinv : p.invincible = true) (hpos : 0 < p.invincibleTimer)
    (hnn : ∀ d ∈ dts, 0 ≤ d) (hlt : dts.sum < p.invincibleTimer) :
    (dts.foldl JPlayer.update p).invincible = true ∧
    (dts.foldl JPlayer.update p).invincibleTimer = p.invincibleTimer - dts.sum := by
  induction dts generalizing p with
  | nil => simpa using hinv
  | cons d rest ih =>
    have hd : 0 ≤ d := hnn d (List.mem_cons_self d rest)
    have hrest : 0 ≤ rest.sum := List.sum_nonneg (fun x hx => hnn x (List.mem_cons_of_mem d hx))
    have hsum : d + rest.sum < p.invincibleTimer := by simpa [List.sum_cons] using hlt
    have hstep : p.update d = { p with invincibleTimer := p.invincibleTimer - d } := by
      simp only [JPlayer.update, hinv, if_true]
      rw [if_neg]
      linarith
    rw [List.foldl_cons, hstep]
    have := ih { p with invincibleTimer := p.invincibleTimer - d }
      (by simp [hinv]) (by simp; linarith) (fun x hx => hnn x (List.mem_cons_of_mem d hx))
      (by simp; linarith)
    refine ⟨this.1, ?_⟩
    rw [this.2]
    simp [List.sum_cons]
    ring

/-- `Player.update` is the identity on a non-invincible player. -/
theorem playerUpdate_not_invincible (p : JPlayer) (dt : ℚ) (h : p.invincible = false) :
    p.update dt = p := by
  simp [JPlayer.update, h]

theorem playerUpdate_foldl_not_invincible (dts : List ℚ) (p : JPlayer)
    (h : p.invincible = false) : dts.foldl JPlayer.update p = p := by
  induction dts with
  | nil => rfl
  | cons d rest ih => rw [List.foldl_cons, playerUpdate_not_invincible p d h, ih]

/-- Once the cumulative elapsed time reaches the remaining invincibility,
the flag has been cleared. -/
theorem playerUpdate_foldl_expired (dts : List ℚ) (p : JPlayer)
    (hinv : p.invincible = true) (hpos : 0 < p.invincibleTimer)
    (hnn : ∀ d ∈ dts, 0 ≤ d) (hge : p.invincibleTimer ≤ dts.sum) :
    (dts.foldl JPlayer.update p).invincible = false := by
  induction dts generalizing p with
  | nil =>
    exfalso
    simp only [List.sum_nil] at hge
    linarith
  | cons d rest ih =>
    rw [List.foldl_cons]
    by_cases ht : p.invincibleTimer - d ≤ 0
    · have hstep : p.update d =
          { p with invincibleTimer := p.invincibleTimer - d, invincible := false } := by
        simp only [JPlayer.update, hinv, if_true]
        rw [if_pos ht]
      rw [hstep, playerUpdate_foldl_not_invincible _ _ rfl]
    · push_neg at ht
      have hstep : p.update d = { p with invincibleTimer := p.invincibleTimer - d } := by
        simp only [JPlayer.update, hinv, if_true]
        rw [if_neg (by linarith)]
      rw [hstep]
      have hsum : d + rest.sum = (d :: rest).sum := (List.sum_cons).symm
      exact ih { p with invincibleTimer := p.invincibleTimer - d }
        (by simp [hinv]) (by simpa using ht)
        (fun x hx => hnn x (List.mem_cons_of_mem d hx))
        (by simp only []; have := hge; rw [List.sum_cons] at this; simp; linarith)

/-- C2: from a non-invincible player, a hostile contact within the 0.8
threshold applies the fixed damage (hp −= 10), sets the invincibility flag
and starts the 500 ms countdown; while the `dt`-accumulated elapsed time
stays below 500 ms a further contact changes nothing (no hp loss); once at
least 500 ms have elapsed the flag is clear and a contact damages again. -/
theorem invincibility_window (p : JPlayer) (hni : p.invincible = false) :
    ((p.takeDamage ENEMY_DAMAGE).1.hp = p.hp - 10 ∧
     (p.takeDamage ENEMY_DAMAGE).1.invincible = true ∧
     (p.takeDamage ENEMY_DAMAGE).1.invincibleTimer = 500 ∧
     (p.takeDamage ENEMY_DAMAGE).2 = true) ∧
    (∀ (knx kny : ℚ → ℚ → ℚ) (e : JEnemy), e.active = true →
      |p.x - e.x| < 4/5 → |p.y - e.y| < 4/5 →
      (peStep knx kny p.x p.y (p, []) e).1 = (p.takeDamage ENEMY_DAMAGE).1) ∧
    (∀ dts : List ℚ, (∀ d ∈ dts, 0 ≤ d) → dts.sum < 500 →
      (dts.foldl JPlayer.update (p.takeDamage ENEMY_DAMAGE).1).takeDamage ENEMY_DAMAGE
        = (dts.foldl JPlayer.update (p.takeDamage ENEMY_DAMAGE).1, false)) ∧
    (∀ dts : List ℚ, (∀ d ∈ dts, 0 ≤ d) → 500 ≤ dts.sum →
      ((dts.foldl JPlayer.update (p.takeDamage ENEMY_DAMAGE).1).takeDamage ENEMY_DAMAGE).1.hp
        = p.hp - 10 - 10) := by
  have hq : p.takeDamage ENEMY_DAMAGE =
      ({ p with hp := p.hp - ENEMY_DAMAGE, invincible := true, invincibleTimer := 500 }, true) := by
    simp [JPlayer.takeDamage, hni]
  have hblocked : ∀ q : JPlayer, q.invincible = true → ∀ a : ℤ, q.takeDamage a = (q, false) := by
    intro q hqv a
    simp [JPlayer.takeDamage, hqv]
  refine ⟨?_, ?_, ?_, ?_⟩
  · rw [hq]
    refine ⟨?_, rfl, rfl, rfl⟩
    simp [ENEMY_DAMAGE]
  · intro knx kny e hact hx hy
    simp only [peStep, hact, hx, hy, and_self, if_true, true_and]
    rw [hq]
    simp
  · intro dts hnn hlt
    have hinv2 := playerUpdate_foldl_invincible dts (p.takeDamage ENEMY_DAMAGE).1
      (by rw [hq]) (by rw [hq]; norm_num) hnn (by rw [hq]; simpa using hlt)
    exact hblocked _ hinv2.1 _
  · intro dts hnn hge
    have hexp := playerUpdate_foldl_expired dts (p.takeDamage ENEMY_DAMAGE).1
      (by rw [hq]) (by rw [hq]; norm_num) hnn (by rw [hq]; simpa using hge)
    have hhp : (dts.foldl JPlayer.update (p.takeDamage ENEMY_DAMAGE).1).hp
        = p.hp - 10 := by
      rw [playerUpdate_foldl_hp, hq]
      simp [ENEMY_DAMAGE]
    have hopen : ∀ q : JPlayer, q.invincible = false → ∀ a : ℤ,
        (q.takeDamage a).1.hp = q.hp - a := by
      intro q hqv a
      simp [JPlayer.takeDamage, hqv]
    rw [hopen _ hexp, hhp]
    simp [ENEMY_DAMAGE]

/-- Witness for C2 at a concrete player: one hit from full hp, a second
contact 300 ms later is free, a contact after 600 ms costs again. -/
theorem invincibility_window_witness :
    (((mkPlayer 15 7).takeDamage ENEMY_DAMAGE).1.hp = (mkPlayer 15 7).hp - 10 ∧
     ((mkPlayer 15 7).takeDamage ENEMY_DAMAGE).1.invincible = true ∧
     ((mkPlayer 15 7).takeDamage ENEMY_DAMAGE).1.invincibleTimer = 500 ∧
     ((mkPlayer 15 7).takeDamage ENEMY_DAMAGE).2 = true) ∧
    (([(300 : ℚ)].foldl JPlayer.update
        ((mkPlayer 15 7).takeDamage ENEMY_DAMAGE).1).takeDamage ENEMY_DAMAGE
      = ([(300 : ℚ)].foldl JPlayer.update ((mkPlayer 15 7).takeDamage ENEMY_DAMAGE).1, false)) ∧
    ((([(300 : ℚ), 300].foldl JPlayer.update
        ((mkPlayer 15 7).takeDamage ENEMY_DAMAGE).1).takeDamage ENEMY_DAMAGE).1.hp
      = (mkPlayer 15 7).hp - 10 - 10) := by
  have h := invincibility_window (mkPlayer 15 7) rfl
  exact ⟨h.1,
    h.2.2.1 [300] (by intro d hd; fin_cases hd; norm_num) (by norm_num),
    h.2.2.2 [300, 300] (by intro d hd; fin_cases hd <;> norm_num) (by norm_num)⟩

/-! ## C3: projectile hit resolution -/

/-- Behaviour of `Enemy.takeDamage`: one hp decrement, death exactly when
the decremented hp is ≤ 0, deactivation exactly on death. -/
theorem enemyTakeDamage_spec (e : JEnemy) :
    e.takeDamage.1.hp = e.hp - 1 ∧ (e.takeDamage.2 = true ↔ e.hp - 1 ≤ 0) ∧
    (e.takeDamage.2 = true → e.takeDamage.1.active = false) ∧
    (e.takeDamage.2 = false → e.takeDamage.1.active = e.active) := by
  unfold JEnemy.takeDamage
  by_cases h : e.hp - 1 ≤ 0 <;> simp [h]

/-- A scan never changes the number of hostiles. -/
theorem projHitScan_length (px py : ℚ) (es : List JEnemy) :
    (projHitScan px py es).1.length = es.length := by
  induction es with
  | nil => rfl
  | cons e rest ih =>
    by_cases hc : e.active = true ∧ |px - e.x| < 4/5 ∧ |py - e.y| < 4/5 <;>
      simp [projHitScan, hc, ih]

/-- A scan adds one pickup exactly when it removes one live hostile:
`#gems + #live hostiles` is conserved. -/
theorem projHitScan_conserve (px py : ℚ) (es : List JEnemy) :
    (projHitScan px py es).2.2.1.length + (projHitScan px py es).1.countP (·.active)
      = es.countP (·.active) := by
  induction es with
  | nil => rfl
  | cons e rest ih =>
    by_cases hc : e.active = true ∧ |px - e.x| < 4/5 ∧ |py - e.y| < 4/5
    · have hspec := enemyTakeDamage_spec e
      by_cases hd : e.takeDamage.2 = true
      · have hdead : e.takeDamage.1.active = false := hspec.2.2.1 hd
        simp [projHitScan, hc, hd, List.countP_cons, hdead, hc.1]
        omega
      · have halive : e.takeDamage.1.active = e.active :=
          hspec.2.2.2 (by simpa using hd)
        simp [projHitScan, hc, hd, List.countP_cons, halive, hc.1]
    · simp only [projHitScan, if_neg hc, List.countP_cons]
      omega

/-- A scan's score delta is 10 per pickup it spawns. -/
theorem projHitScan_score (px py : ℚ) (es : List JEnemy) :
    (projHitScan px py es).2.1 = 10 * ((projHitScan px py es).2.2.1.length : ℤ) := by
  induction es with
  | nil => rfl
  | cons e rest ih =>
    by_cases hc : e.active = true ∧ |px - e.x| < 4/5 ∧ |py - e.y| < 4/5
    · by_cases hd : e.takeDamage.2 = true <;> simp [projHitScan, hc, hd]
    · simpa [projHitScan, hc] using ih

/-- A hostile already inactive when the scan reaches it is not touched. -/
theorem projHitScan_inactive_preserved (px py : ℚ) (es : List JEnemy)
    (i : ℕ) (e0 : JEnemy) (hi : es[i]? = some e0) (hb : e0.active = false) :
    (projHitScan px py es).1[i]? = some e0 := by
  induction es generalizing i with
  | nil => simp at hi
  | cons e rest ih =>
    by_cases hc : e.active = true ∧ |px - e.x| < 4/5 ∧ |py - e.y| < 4/5
    · cases i with
      | zero =>
        exfalso
        simp only [List.getElem?_cons_zero, Option.some_inj] at hi
        rw [← hi, hc.1] at hb
        simp at hb
      | succ n =>
        simp only [List.getElem?_cons_succ] at hi
        simp [projHitScan, hc, hi]
    · cases i with
      | zero => simpa [projHitScan, hc] using hi
      | succ n =>
        simp only [List.getElem?_cons_succ] at hi
        simpa [projHitScan, hc] using ih n hi

/-- First match wins: with no earlier active hostile in range and `e`
active and in range, the scan damages exactly `e`, leaves everything else
in place, and spawns the reward and pickup exactly when `e` died. -/
theorem projHitScan_first_match (px py : ℚ) (as bs : List JEnemy) (e : JEnemy)
    (hmiss : ∀ a ∈ as, ¬(a.active = true ∧ |px - a.x| < 4/5 ∧ |py - a.y| < 4/5))
    (hhit : e.active = true ∧ |px - e.x| < 4/5 ∧ |py - e.y| < 4/5) :
    projHitScan px py (as ++ e :: bs)
      = (as ++ e.takeDamage.1 :: bs,
         if e.takeDamage.2 then 10 else 0,
         if e.takeDamage.2 then [mkXPGem e.x e.y] else [],
         true) := by
  induction as with
  | nil => simp [projHitScan, hhit]
  | cons a rest ih =>
    have hna := hmiss a (List.mem_cons_self a rest)
    have ihr := ih (fun x hx => hmiss x (List.mem_cons_of_mem a hx))
    have hstep : (a :: rest) ++ e :: bs = a :: (rest ++ e :: bs) := rfl
    rw [hstep]
    simp only [projHitScan, if_neg hna, List.append_eq, ihr, List.cons_append]

/-- The loop preserves the number of hostiles. -/
theorem projectilesLoop_enemies_length (ps : List JProjectile) (es : List JEnemy)
    (sc : ℤ) (gs : List JXPGem) :
    (projectilesLoop ps es sc gs).2.1.length = es.length := by
  induction ps generalizing es sc gs with
  | nil => rfl
  | cons pr rest ih =>
    by_cases ha : pr.active = true <;>
      simp [projectilesLoop, ha, ih, projHitScan_length]

/-- Over the whole loop, `#gems + #live hostiles` is conserved. -/
theorem projectilesLoop_conserve (ps : List JProjectile) (es : List JEnemy)
    (sc : ℤ) (gs : List JXPGem) :
    (projectilesLoop ps es sc gs).2.2.2.length
        + (projectilesLoop ps es sc gs).2.1.countP (·.active)
      = gs.length + es.countP (·.active) := by
  induction ps generalizing es sc gs with
  | nil => rfl
  | cons pr rest ih =>
    by_cases ha : pr.active = true
    · simp only [projectilesLoop, if_pos ha]
      have h1 := ih (projHitScan pr.x pr.y es).1 (sc + (projHitScan pr.x pr.y es).2.1)
        (gs ++ (projHitScan pr.x pr.y es).2.2.1)
      have h2 := projHitScan_conserve pr.x pr.y es
      simp only [List.length_append] at h1
      omega
    · simpa [projectilesLoop, ha] using ih es sc gs

/-- Over the whole loop, the score advances by 10 per pickup spawned. -/
theorem projectilesLoop_score (ps : List JProjectile) (es : List JEnemy)
    (sc : ℤ) (gs : List JXPGem) :
    (projectilesLoop ps es sc gs).2.2.1
      = sc + 10 * (((projectilesLoop ps es sc gs).2.2.2.length : ℤ) - (gs.length : ℤ)) := by
  induction ps generalizing es sc gs with
  | nil => simp [projectilesLoop]
  | cons pr rest ih =>
    by_cases ha : pr.active = true
    · simp only [projectilesLoop, if_pos ha]
      have h1 := ih (projHitScan pr.x pr.y es).1 (sc + (projHitScan pr.x pr.y es).2.1)
        (gs ++ (projHitScan pr.x pr.y es).2.2.1)
      have h2 := projHitScan_score pr.x pr.y es
      rw [h1, h2]
      simp only [List.length_append]
      push_cast
      ring
    · simpa [projectilesLoop, ha] using ih es sc gs

/-- Hostiles already inactive when the loop starts are never touched. -/
theorem projectilesLoop_inactive_preserved (ps : List JProjectile) (es : List JEnemy)
    (sc : ℤ) (gs : List JXPGem) (i : ℕ) (e0 : JEnemy)
    (hi : es[i]? = some e0) (hb : e0.active = false) :
    (projectilesLoop ps es sc gs).2.1[i]? = some e0 := by
  induction ps generalizing es sc gs with
  | nil => simpa [projectilesLoop]
  | cons pr rest ih =>
    by_cases ha : pr.active = true
    · simp only [projectilesLoop, if_pos ha]
      exact ih _ _ _ (projHitScan_inactive_preserved pr.x pr.y es i e0 hi hb)
    · simpa [projectilesLoop, ha] using ih es sc gs hi

/-- C3: when an active projectile comes within the 0.8 axis-aligned
threshold of an active hostile, the first such hostile (in array order)
takes the single hit: the projectile deactivates immediately, the
hostile's hp decrements by 1, and exactly on death (hp ≤ 0) the hostile
deactivates, the score gains the fixed kill reward 10 and exactly one
pickup spawns at the hostile's position; over the whole phase the pickup
count matches the number of hostiles killed one-for-one (reward and
pickup exactly once per hostile), and already-dead hostiles are never
touched again. -/
theorem projectile_hit_resolution :
    (∀ (px py : ℚ) (as bs : List JEnemy) (e : JEnemy),
      (∀ a ∈ as, ¬(a.active = true ∧ |px - a.x| < 4/5 ∧ |py - a.y| < 4/5)) →
      (e.active = true ∧ |px - e.x| < 4/5 ∧ |py - e.y| < 4/5) →
      projHitScan px py (as ++ e :: bs)
        = (as ++ e.takeDamage.1 :: bs,
           if e.takeDamage.2 then 10 else 0,
           if e.takeDamage.2 then [mkXPGem e.x e.y] else [],
           true)) ∧
    (∀ e : JEnemy, e.takeDamage.1.hp = e.hp - 1 ∧
      (e.takeDamage.2 = true ↔ e.hp - 1 ≤ 0) ∧
      (e.takeDamage.2 = true → e.takeDamage.1.active = false) ∧
      (e.takeDamage.2 = false → e.takeDamage.1.active = e.active)) ∧
    (∀ (pr : JProjectile) (ps : List JProjectile) (es : List JEnemy) (sc : ℤ)
        (gs : List JXPGem),
      pr.active = true → (projHitScan pr.x pr.y es).2.2.2 = true →
      (projectilesLoop (pr :: ps) es sc gs).1.head? = some { pr with active := false }) ∧
    (∀ (ps : List JProjectile) (es : List JEnemy) (sc : ℤ) (gs : List JXPGem),
      (projectilesPhase ps es sc gs).2.2.2.length
          + (projectilesPhase ps es sc gs).2.1.countP (·.active)
        = gs.length + es.countP (·.active) ∧
      (projectilesPhase ps es sc gs).2.2.1
        = sc + 10 * (((projectilesPhase ps es sc gs).2.2.2.length : ℤ) - (gs.length : ℤ)) ∧
      (projectilesPhase ps es sc gs).2.1.length = es.length ∧
      (∀ (i : ℕ) (e0 : JEnemy), es[i]? = some e0 → e0.active = false →
        (projectilesPhase ps es sc gs).2.1[i]? = some e0)) := by
  refine ⟨projHitScan_first_match, enemyTakeDamage_spec, ?_, ?_⟩
  · intro pr ps es sc gs ha hh
    simp [projectilesLoop, ha, hh]
  · intro ps es sc gs
    by_cases hg : 0 < ps.countP (·.active) ∧ 0 < es.countP (·.active)
    · simp only [projectilesPhase, if_pos hg]
      exact ⟨projectilesLoop_conserve ps es sc gs,
        projectilesLoop_score ps es sc gs,
        projectilesLoop_enemies_length ps es sc gs,
        fun i e0 hi hb => projectilesLoop_inactive_preserved ps es sc gs i e0 hi hb⟩
    · have hphase : projectilesPhase ps es sc gs = (ps, es, sc, gs) := by
        unfold projectilesPhase
        rw [if_neg hg]
      rw [hphase]
      exact ⟨rfl, by ring, rfl, fun i e0 hi _ => hi⟩

/-- Witness for C3: a lone projectile at (5, 5) over the lone 1-hp hostile
at (5, 5): the hostile dies, the score delta is 10 and one pickup appears
at (5, 5). -/
theorem projectile_hit_resolution_witness :
    projHitScan 5 5 ([] ++ mkEnemy 5 5 :: [])
      = ([] ++ (mkEnemy 5 5).takeDamage.1 :: [],
         if (mkEnemy 5 5).takeDamage.2 then 10 else 0,
         if (mkEnemy 5 5).takeDamage.2 then [mkXPGem (mkEnemy 5 5).x (mkEnemy 5 5).y] else [],
         true) ∧
    ((mkEnemy 5 5).takeDamage.2 = true → (mkEnemy 5 5).takeDamage.1.active = false) := by
  constructor
  · exact projectile_hit_resolution.1 5 5 [] [] (mkEnemy 5 5)
      (by intro a ha; simp at ha)
      (by refine ⟨rfl, ?_, ?_⟩ <;> norm_num [mkEnemy])
  · exact (projectile_hit_resolution.2.1 (mkEnemy 5 5)).2.2.1

/-! ## C4: the spawn gate -/

/-- C4 (amended): after the wave check, a hostile spawns exactly when the
spawn timer has reached the current spawn interval AND the hostile array's
length — which, because cleanup runs only after `updateWave`, may still
count hostiles deactivated earlier in the same tick — is strictly below
`2 × maxPopulation`; on a spawn the new hostile is appended at an edge
position, the per-wave counter increments and the spawn timer resets. -/
theorem spawn_gate (st : DirectorState) (dt : ℚ) (side : ℕ) (r : ℚ) :
    (spawnRate (waveCheck st dt).wave ≤ (waveCheck st dt).spawnTimer ∧
        (((waveCheck st dt).enemies.length : ℤ) < maxEnemies (waveCheck st dt).wave * 2) →
      (updateWave st dt side r).enemies
          = st.enemies ++ [mkEnemy (spawnPos side r).1 (spawnPos side r).2] ∧
        (updateWave st dt side r).spawnTimer = 0 ∧
        (updateWave st dt side r).enemiesSpawnedThisWave
          = (waveCheck st dt).enemiesSpawnedThisWave + 1) ∧
    (¬(spawnRate (waveCheck st dt).wave ≤ (waveCheck st dt).spawnTimer ∧
        (((waveCheck st dt).enemies.length : ℤ) < maxEnemies (waveCheck st dt).wave * 2)) →
      updateWave st dt side r = waveCheck st dt) ∧
    (waveCheck st dt).enemies = st.enemies := by
  have henemies : (waveCheck st dt).enemies = st.enemies := by
    unfold waveCheck
    split <;> rfl
  refine ⟨?_, ?_, henemies⟩
  · intro h
    unfold updateWave spawnStep
    rw [if_pos h]
    exact ⟨by rw [← henemies]; rfl, rfl, rfl⟩
  · intro h
    unfold updateWave spawnStep
    rw [if_neg h]

/-- Witness for C4 (amended), spawning branch: spawn timer 2000 ≥ interval
2000 at wave 1 with an empty hostile array. -/
theorem spawn_gate_witness :
    (updateWave ⟨1, 0, 2000, 0, []⟩ 0 0 0).enemies
        = [] ++ [mkEnemy (spawnPos 0 0).1 (spawnPos 0 0).2] ∧
    (updateWave ⟨1, 0, 2000, 0, []⟩ 0 0 0).spawnTimer = 0 ∧
    (updateWave ⟨1, 0, 2000, 0, []⟩ 0 0 0).enemiesSpawnedThisWave
        = (waveCheck ⟨1, 0, 2000, 0, []⟩ 0).enemiesSpawnedThisWave + 1 :=
  (spawn_gate ⟨1, 0, 2000, 0, []⟩ 0 0 0).1
    (by constructor <;>
          norm_num [waveCheck, spawnRate, maxEnemies, WAVE_DURATION, MIN_SPAWN_RATE,
            BASE_SPAWN_RATE])

/-- C4 counterexample against the claim as stated (gate on the *active*
hostile count): one full collision-then-director tick.  Six live hostiles
stand in a row on y = 10; the projectile at (25, 10) kills the hostile at
(25, 10) during the collision phase of the same tick.  At the spawn
decision the spawn timer (1900 + 100) has reached the wave-1 interval 2000
and only 5 hostiles are active — strictly below 2 × maxPopulation = 6 — so
the claim requires a spawn; but the code gates on the array length, still
6 until cleanup, and does not spawn. -/
theorem spawn_gate_counterexample :
    (spawnRate (1 : ℤ) ≤ 1900 + 100) ∧
    (((checkCollisions (fun _a _b => 0) (fun _a _b => 0) (mkPlayer 1 1)
        [mkEnemy 20 10, mkEnemy 21 10, mkEnemy 22 10,
         mkEnemy 23 10, mkEnemy 24 10, mkEnemy 25 10]
        [mkProjectile (fun _q => 1) 25 10 1 0] [] 0).2.1.countP (·.active) : ℤ)
      < maxEnemies 1 * 2) ∧
    (updateWave
        ⟨1, 1000, 1900, 0,
          (checkCollisions (fun _a _b => 0) (fun _a _b => 0) (mkPlayer 1 1)
            [mkEnemy 20 10, mkEnemy 21 10, mkEnemy 22 10,
             mkEnemy 23 10, mkEnemy 24 10, mkEnemy 25 10]
            [mkProjectile (fun _q => 1) 25 10 1 0] [] 0).2.1⟩
        100 0 0).enemies.length = 6 := by
  have hcoll : (checkCollisions (fun _a _b => 0) (fun _a _b => 0) (mkPlayer 1 1)
      [mkEnemy 20 10, mkEnemy 21 10, mkEnemy 22 10,
       mkEnemy 23 10, mkEnemy 24 10, mkEnemy 25 10]
      [mkProjectile (fun _q => 1) 25 10 1 0] [] 0).2.1
      = [mkEnemy 20 10, mkEnemy 21 10, mkEnemy 22 10, mkEnemy 23 10, mkEnemy 24 10,
         { mkEnemy 25 10 with hp := 0, active := false }] := by
    norm_num [checkCollisions, playerEnemiesPhase, peStep, projectilesPhase,
      projectilesLoop, projHitScan, gemPhase, gemStep, mkPlayer, mkEnemy,
      mkProjectile, mkXPGem, JPlayer.takeDamage, JEnemy.takeDamage,
      ENEMY_DAMAGE, abs, List.countP_cons]
  refine ⟨by norm_num [spawnRate, MIN_SPAWN_RATE, BASE_SPAWN_RATE], ?_, ?_⟩
  · rw [hcoll]
    norm_num [List.countP_cons, mkEnemy, maxEnemies]
  · rw [hcoll]
    norm_num [updateWave, waveCheck, spawnStep, spawnRate, maxEnemies,
      WAVE_DURATION, MIN_SPAWN_RATE, BASE_SPAWN_RATE]

/-! ## C5: wave rollover -/

/-- `updateWave` changes wave and wave timer only through `waveCheck`. -/
theorem updateWave_wave (st : DirectorState) (dt : ℚ) (side : ℕ) (r : ℚ) :
    (updateWave st dt side r).wave = (waveCheck st dt).wave ∧
    (updateWave st dt side r).waveTimer = (waveCheck st dt).waveTimer := by
  unfold updateWave spawnStep
  split <;> exact ⟨rfl, rfl⟩

theorem waveCheck_of_lt (st : DirectorState) (dt : ℚ)
    (h : st.waveTimer + dt < WAVE_DURATION) :
    (waveCheck st dt).wave = st.wave ∧ (waveCheck st dt).waveTimer = st.waveTimer + dt := by
  unfold waveCheck
  rw [if_neg (not_le.mpr h)]
  exact ⟨rfl, rfl⟩

theorem waveCheck_of_ge (st : DirectorState) (dt : ℚ)
    (h : WAVE_DURATION ≤ st.waveTimer + dt) :
    (waveCheck st dt).wave = st.wave + 1 ∧ (waveCheck st dt).waveTimer = 0 ∧
    (waveCheck st dt).enemiesSpawnedThisWave = 0 := by
  unfold waveCheck
  rw [if_pos h]
  exact ⟨rfl, rfl, rfl⟩

/-- Ticks of zero total `dt` leave wave and a zeroed wave timer alone. -/
theorem runDirector_zero_sum (ticks : List (ℚ × ℕ × ℚ)) (st : DirectorState)
    (hnn : ∀ t ∈ ticks, 0 ≤ t.1) (hz : (ticks.map (fun t => t.1)).sum = 0)
    (h0 : st.waveTimer = 0) :
    (runDirector st ticks).wave = st.wave ∧ (runDirector st ticks).waveTimer = 0 := by
  induction ticks generalizing st with
  | nil => exact ⟨rfl, h0⟩
  | cons t rest ih =>
    have ht : 0 ≤ t.1 := hnn t (List.mem_cons_self t rest)
    have hrest : 0 ≤ (rest.map (fun t => t.1)).sum :=
      List.sum_nonneg (by
        intro x hx
        obtain ⟨a, ha, rfl⟩ := List.mem_map.mp hx
        exact hnn a (List.mem_cons_of_mem t ha))
    have hsum : t.1 + (rest.map (fun t => t.1)).sum = 0 := by simpa using hz
    have ht0 : t.1 = 0 := by linarith
    have hr0 : (rest.map (fun t => t.1)).sum = 0 := by linarith
    have hlt : st.waveTimer + t.1 < WAVE_DURATION := by
      rw [h0, ht0]
      norm_num [WAVE_DURATION]
    have hw := updateWave_wave st t.1 t.2.1 t.2.2
    have hc := waveCheck_of_lt st t.1 hlt
    have hstep : (updateWave st t.1 t.2.1 t.2.2).wave = st.wave ∧
        (updateWave st t.1 t.2.1 t.2.2).waveTimer = 0 := by
      refine ⟨hw.1.trans hc.1, hw.2.trans ?_⟩
      rw [hc.2, h0, ht0]
      ring
    have := ih (updateWave st t.1 t.2.1 t.2.2)
      (fun x hx => hnn x (List.mem_cons_of_mem t hx)) hr0 hstep.2
    refine ⟨?_, this.2⟩
    rw [show (runDirector st (t :: rest)) = runDirector (updateWave st t.1 t.2.1 t.2.2) rest from rfl]
    rw [this.1, hstep.1]

/-- As long as the ticks are non-negative and sum with the current wave
timer to exactly the wave duration, the director increments the wave
exactly once and ends with a zero wave timer. -/
theorem runDirector_hits_duration (ticks : List (ℚ × ℕ × ℚ)) (st : DirectorState)
    (hnn : ∀ t ∈ ticks, 0 ≤ t.1) (hlt : st.waveTimer < WAVE_DURATION)
    (hsum : st.waveTimer + (ticks.map (fun t => t.1)).sum = WAVE_DURATION) :
    (runDirector st ticks).wave = st.wave + 1 ∧ (runDirector st ticks).waveTimer = 0 := by
  induction ticks generalizing st with
  | nil =>
    exfalso
    simp only [List.map_nil, List.sum_nil, add_zero] at hsum
    rw [hsum] at hlt
    exact lt_irrefl _ hlt
  | cons t rest ih =>
    have ht : 0 ≤ t.1 := hnn t (List.mem_cons_self t rest)
    have hrest : 0 ≤ (rest.map (fun t => t.1)).sum :=
      List.sum_nonneg (by
        intro x hx
        obtain ⟨a, ha, rfl⟩ := List.mem_map.mp hx
        exact hnn a (List.mem_cons_of_mem t ha))
    have hsum2 : st.waveTimer + (t.1 + (rest.map (fun t => t.1)).sum) = WAVE_DURATION := by
      simpa using hsum
    have hw := updateWave_wave st t.1 t.2.1 t.2.2
    rw [show (runDirector st (t :: rest)) = runDirector (updateWave st t.1 t.2.1 t.2.2) rest from rfl]
    by_cases hd : WAVE_DURATION ≤ st.waveTimer + t.1
    · have hr0 : (rest.map (fun t => t.1)).sum = 0 := by linarith
      have hc := waveCheck_of_ge st t.1 hd
      have hstep : (updateWave st t.1 t.2.1 t.2.2).wave = st.wave + 1 ∧
          (updateWave st t.1 t.2.1 t.2.2).waveTimer = 0 :=
        ⟨hw.1.trans hc.1, hw.2.trans hc.2.1⟩
      have hz := runDirector_zero_sum rest (updateWave st t.1 t.2.1 t.2.2)
        (fun x hx => hnn x (List.mem_cons_of_mem t hx)) hr0 hstep.2
      exact ⟨hz.1.trans hstep.1, hz.2⟩
    · push_neg at hd
      have hc := waveCheck_of_lt st t.1 hd
      have hstep : (updateWave st t.1 t.2.1 t.2.2).wave = st.wave ∧
          (updateWave st t.1 t.2.1 t.2.2).waveTimer = st.waveTimer + t.1 :=
        ⟨hw.1.trans hc.1, hw.2.trans hc.2⟩
      have := ih (updateWave st t.1 t.2.1 t.2.2)
        (fun x hx => hnn x (List.mem_cons_of_mem t hx))
        (by rw [hstep.2]; exact hd)
        (by rw [hstep.2]; linarith)
      rw [this.1, this.2, hstep.1]
      exact ⟨rfl, rfl⟩

/-- C5: when the wave timer (accumulated `dt`) reaches the 20000 ms wave
duration, the wave counter increments by 1 and the wave timer and the
per-wave spawn counter reset to 0; in particular from a fresh wave-1 state
any non-negative tick sequence totalling exactly 20000 ms of simulated
time ends with the wave counter at 2. -/
theorem wave_rollover :
    (∀ (st : DirectorState) (dt : ℚ), WAVE_DURATION ≤ st.waveTimer + dt →
      (waveCheck st dt).wave = st.wave + 1 ∧ (waveCheck st dt).waveTimer = 0 ∧
      (waveCheck st dt).enemiesSpawnedThisWave = 0) ∧
    (∀ (ticks : List (ℚ × ℕ × ℚ)) (st : DirectorState),
      (∀ t ∈ ticks, 0 ≤ t.1) → st.wave = 1 → st.waveTimer = 0 →
      (ticks.map (fun t => t.1)).sum = WAVE_DURATION →
      (runDirector st ticks).wave = 2 ∧ (runDirector st ticks).waveTimer = 0) := by
  refine ⟨waveCheck_of_ge, ?_⟩
  intro ticks st hnn hw1 h0 hsum
  have := runDirector_hits_duration ticks st hnn
    (by rw [h0]; norm_num [WAVE_DURATION])
    (by rw [h0, zero_add]; exact hsum)
  rw [this.1, hw1]
  exact ⟨rfl, this.2⟩

/-- Witness for C5: two 10000 ms ticks from the fresh wave-1 state. -/
theorem wave_rollover_witness :
    (runDirector ⟨1, 0, 0, 0, []⟩ [(10000, 0, 0), (10000, 1, 0)]).wave = 2 ∧
    (runDirector ⟨1, 0, 0, 0, []⟩ [(10000, 0, 0), (10000, 1, 0)]).waveTimer = 0 :=
  wave_rollover.2 [(10000, 0, 0), (10000, 1, 0)] ⟨1, 0, 0, 0, []⟩
    (by intro t ht; fin_cases ht <;> norm_num) rfl rfl
    (by norm_num [WAVE_DURATION])

/-! ## C6: wave escalation formulas -/

/-- C6: the spawn interval equals
`max(minSpawnInterval, baseSpawnInterval − (wave−1) × spawnRateStep)`
(= `max(500, 2000 − (wave−1)·150)` ms), is non-increasing in the wave
number and floored at the configured minimum, and the population cap
`maxPopulation = 3 + (wave−1)·2` is non-decreasing in the wave number. -/
theorem wave_escalation :
    (∀ w : ℤ, spawnRate w = max MIN_SPAWN_RATE (BASE_SPAWN_RATE - ((w : ℚ) - 1) * 150) ∧
      maxEnemies w = 3 + (w - 1) * 2) ∧
    (∀ w1 w2 : ℤ, w1 ≤ w2 →
      spawnRate w2 ≤ spawnRate w1 ∧ maxEnemies w1 ≤ maxEnemies w2) ∧
    (∀ w : ℤ, MIN_SPAWN_RATE ≤ spawnRate w) := by
  refine ⟨fun w => ⟨rfl, rfl⟩, ?_, fun w => le_max_left _ _⟩
  intro w1 w2 h
  constructor
  · apply max_le_max le_rfl
    have : (w1 : ℚ) ≤ (w2 : ℚ) := by exact_mod_cast h
    linarith
  · unfold maxEnemies
    omega

/-- Witness for C6 at waves 1 ≤ 2: the interval drops (1850 ≤ 2000) and
the cap grows (3 ≤ 5). -/
theorem wave_escalation_witness :
    spawnRate 2 ≤ spawnRate 1 ∧ maxEnemies 1 ≤ maxEnemies 2 :=
  wave_escalation.2.1 1 2 (by norm_num)

/-! ## C7: projectile lifetime -/

theorem projUpdate_lifetime (p : JProjectile) (dt : ℚ) :
    (p.update dt).lifetime = p.lifetime - dt := rfl

/-- An update whose decremented lifetime is ≤ 0 leaves the projectile
inactive. -/
theorem projUpdate_active_of_expired (p : JProjectile) (dt : ℚ)
    (h : p.lifetime - dt ≤ 0) : (p.update dt).active = false := by
  have hact : (p.update dt).active =
      if p.x + p.vx * dt < 0 ∨ (CANVAS_WIDTH : ℚ) ≤ p.x + p.vx * dt ∨
          p.y + p.vy * dt < 0 ∨ (CANVAS_HEIGHT : ℚ) ≤ p.y + p.vy * dt ∨
          p.lifetime - dt ≤ 0 then false else p.active := rfl
  rw [hact, if_pos (Or.inr (Or.inr (Or.inr (Or.inr h))))]

theorem projUpdate_foldl_lifetime (dts : List ℚ) (p : JProjectile) :
    (dts.foldl JProjectile.update p).lifetime = p.lifetime - dts.sum := by
  induction dts generalizing p with
  | nil => simp
  | cons d rest ih =>
    rw [List.foldl_cons, ih, projUpdate_lifetime, List.sum_cons]
    ring

/-- C7: a projectile (constructed with its fixed lifetime L = 3000 ms) is
no longer active once the cumulative `dt` over its updates reaches L —
regardless of its trajectory, so in particular when it never leaves the
arena bounds. -/
theorem projectile_lifetime_expiry (sqrtf : ℚ → ℚ) (x y vx vy : ℚ)
    (dts : List ℚ) (hne : dts ≠ []) (hsum : 3000 ≤ dts.sum) :
    (dts.foldl JProjectile.update (mkProjectile sqrtf x y vx vy)).active = false := by
  rcases List.eq_nil_or_concat dts with rfl | ⟨ds, d, rfl⟩
  · exact absurd rfl hne
  · rw [List.concat_eq_append, List.foldl_append, List.foldl_cons, List.foldl_nil]
    have hlife : ((ds.foldl JProjectile.update (mkProjectile sqrtf x y vx vy)).lifetime - d)
        ≤ 0 := by
      rw [projUpdate_foldl_lifetime]
      have : (mkProjectile sqrtf x y vx vy).lifetime = 3000 := rfl
      rw [this]
      rw [List.concat_eq_append, List.sum_append, List.sum_cons, List.sum_nil] at hsum
      linarith
    exact projUpdate_active_of_expired _ d hlife

/-- Witness for C7: one 3000 ms update of a fresh rightward projectile. -/
theorem projectile_lifetime_expiry_witness :
    ([(3000 : ℚ)].foldl JProjectile.update
      (mkProjectile (fun _q => 1) 0 7 1 0)).active = false :=
  projectile_lifetime_expiry (fun _q => 1) 0 7 1 0 [3000]
    (by simp) (by norm_num)

/-! ## C8: render-diff minimality -/

theorem cell_eq (c1 c2 : Cell) (h1 : c1.char = c2.char) (h2 : c1.cls = c2.cls) :
    c1 = c2 := by
  cases c1
  cases c2
  simp_all

/-- After a render pass the stored previous frame agrees with the current
frame on every grid cell. -/
theorem cellAt_updatePrevGrid (cur prev : List (List Cell)) (x y : ℕ)
    (hx : x < CANVAS_WIDTH) (hy : y < CANVAS_HEIGHT) :
    cellAt (updatePrevGrid cur prev) x y = cellAt cur x y := by
  have h1 : (updatePrevGrid cur prev)[y]?
      = some ((List.range CANVAS_WIDTH).map (fun x =>
          if (cellAt cur x y).char ≠ (cellAt prev x y).char ∨
              (cellAt cur x y).cls ≠ (cellAt prev x y).cls
          then cellAt cur x y else cellAt prev x y)) := by
    unfold updatePrevGrid
    rw [List.getElem?_map, List.getElem?_range hy]
    rfl
  have hrow : (updatePrevGrid cur prev).getD y []
      = (List.range CANVAS_WIDTH).map (fun x =>
          if (cellAt cur x y).char ≠ (cellAt prev x y).char ∨
              (cellAt cur x y).cls ≠ (cellAt prev x y).cls
          then cellAt cur x y else cellAt prev x y) := by
    rw [List.getD_eq_getElem?_getD, h1, Option.getD_some]
  have hcell : cellAt (updatePrevGrid cur prev) x y
      = if (cellAt cur x y).char ≠ (cellAt prev x y).char ∨
            (cellAt cur x y).cls ≠ (cellAt prev x y).cls
        then cellAt cur x y else cellAt prev x y := by
    show ((updatePrevGrid cur prev).getD y []).getD x emptyCell = _
    rw [hrow, List.getD_eq_getElem?_getD, List.getElem?_map, List.getElem?_range hx]
    rfl
  rw [hcell]
  by_cases hc : (cellAt cur x y).char ≠ (cellAt prev x y).char ∨
      (cellAt cur x y).cls ≠ (cellAt prev x y).cls
  · rw [if_pos hc]
  · rw [if_neg hc]
    push_neg at hc
    exact cell_eq _ _ hc.1.symm hc.2.symm

/-- Diffing a frame against a previous-frame store that already agrees with
it issues no writes. -/
theorem diffWrites_after_update (cur prev : List (List Cell)) :
    diffWrites cur (updatePrevGrid cur prev) = [] := by
  unfold diffWrites
  rw [List.flatMap_eq_nil_iff]
  intro y hy
  rw [List.filterMap_eq_nil_iff]
  intro x hx
  rw [if_neg]
  push_neg
  have h := cellAt_updatePrevGrid cur prev x y (List.mem_range.mp hx) (List.mem_range.mp hy)
  exact ⟨by rw [h], by rw [h]⟩

/-- C8: a surface write is issued for a cell only if its glyph or style
class differs from the stored previous frame (and carries the current
cell); the current frame then becomes the previous frame on every grid
cell; consequently, when the frame built on the second of two consecutive
ticks equals the first one (no entity changed grid cell or glyph), the
second tick issues zero surface writes. -/
theorem render_diff_minimality :
    (∀ (cur prev : List (List Cell)) (w : ℕ × ℕ × Cell), w ∈ diffWrites cur prev →
      ((cellAt cur w.1 w.2.1).char ≠ (cellAt prev w.1 w.2.1).char ∨
        (cellAt cur w.1 w.2.1).cls ≠ (cellAt prev w.1 w.2.1).cls) ∧
      w.2.2 = cellAt cur w.1 w.2.1) ∧
    (∀ (cur prev : List (List Cell)) (x y : ℕ), x < CANVAS_WIDTH → y < CANVAS_HEIGHT →
      cellAt (updatePrevGrid cur prev) x y = cellAt cur x y) ∧
    (∀ (gems1 gems2 : List JXPGem) (projs1 projs2 : List JProjectile)
        (es1 es2 : List JEnemy) (pl1 pl2 : JPlayer) (now1 now2 : ℚ)
        (prev0 : List (List Cell)),
      buildGrid gems2 projs2 es2 pl2 now2 = buildGrid gems1 projs1 es1 pl1 now1 →
      diffWrites (buildGrid gems2 projs2 es2 pl2 now2)
        (updatePrevGrid (buildGrid gems1 projs1 es1 pl1 now1) prev0) = []) := by
  refine ⟨?_, cellAt_updatePrevGrid, ?_⟩
  · intro cur prev w hw
    simp only [diffWrites, List.mem_flatMap, List.mem_filterMap, List.mem_range] at hw
    obtain ⟨y, _hy, x, _hx, hsome⟩ := hw
    by_cases hc : (cellAt cur x y).char ≠ (cellAt prev x y).char ∨
        (cellAt cur x y).cls ≠ (cellAt prev x y).cls
    · rw [if_pos hc] at hsome
      obtain rfl := Option.some_inj.mp hsome
      exact ⟨hc, rfl⟩
    · rw [if_neg hc] at hsome
      cases hsome
  · intro gems1 gems2 projs1 projs2 es1 es2 pl1 pl2 now1 now2 prev0 heq
    rw [heq]
    exact diffWrites_after_update _ _

/-- Witness for C8: a second identically-built frame (lone player at
(15, 7)) against the previous-frame store of the first issues no writes. -/
theorem render_diff_minimality_witness :
    diffWrites (buildGrid [] [] [] (mkPlayer 15 7) 5)
      (updatePrevGrid (buildGrid [] [] [] (mkPlayer 15 7) 5) []) = [] :=
  render_diff_minimality.2.2 [] [] [] [] [] [] (mkPlayer 15 7) (mkPlayer 15 7) 5 5 [] rfl

/-! ## C9: pause preserves everything but the state label and scheduling -/

/-- C9: from `playing`, `pause()` switches the state label to `paused` and
cancels the scheduled tick, and changes nothing else: the player record
(position, hp, facing, invincibility flag and timer, last-attack time),
the hostile, projectile and pickup arrays, the wave number, score, wave
timer, spawn timer, per-wave spawn counter and timestamp base are exactly
preserved. -/
theorem pause_preserves_state (g : VampireState) (h : g.state = GState.playing) :
    (pauseGame g).state = GState.paused ∧ (pauseGame g).animationId = false ∧
    (pauseGame g).player = g.player ∧ (pauseGame g).enemies = g.enemies ∧
    (pauseGame g).projectiles = g.projectiles ∧ (pauseGame g).xpGems = g.xpGems ∧
    (pauseGame g).wave = g.wave ∧ (pauseGame g).score = g.score ∧
    (pauseGame g).waveTimer = g.waveTimer ∧ (pauseGame g).spawnTimer = g.spawnTimer ∧
    (pauseGame g).enemiesSpawnedThisWave = g.enemiesSpawnedThisWave ∧
    (pauseGame g).lastTimestamp = g.lastTimestamp := by
  unfold pauseGame
  rw [if_neg (by rw [h]; simp)]
  exact ⟨rfl, rfl, rfl, rfl, rfl, rfl, rfl, rfl, rfl, rfl, rfl, rfl⟩

/-- Witness for C9 at a concrete playing state. -/
theorem pause_preserves_state_witness :
    (pauseGame ⟨GState.playing, mkPlayer 15 7, [mkEnemy 0 0], [], [], 1, 0, 0, 0, 0, 42, true⟩).state
        = GState.paused ∧
    (pauseGame ⟨GState.playing, mkPlayer 15 7, [mkEnemy 0 0], [], [], 1, 0, 0, 0, 0, 42, true⟩).player
        = mkPlayer 15 7 ∧
    (pauseGame ⟨GState.playing, mkPlayer 15 7, [mkEnemy 0 0], [], [], 1, 0, 0, 0, 0, 42, true⟩).enemies
        = [mkEnemy 0 0] := by
  have h := pause_preserves_state
    ⟨GState.playing, mkPlayer 15 7, [mkEnemy 0 0], [], [], 1, 0, 0, 0, 0, 42, true⟩ rfl
  exact ⟨h.1, h.2.2.1, h.2.2.2.1⟩

/-! ## C10: lifecycle operations from a non-matching state are no-ops -/

/-- C10: `start()` when already playing, `pause()` when not playing and
`resume()` when not paused return without modifying anything — the whole
game state (label, entities, timers, scheduling flag) is unchanged. -/
theorem lifecycle_noop_guards :
    (∀ (g : VampireState) (now : ℚ), g.state = GState.playing → startGame g now = g) ∧
    (∀ g : VampireState, g.state ≠ GState.playing → pauseGame g = g) ∧
    (∀ (g : VampireState) (now : ℚ), g.state ≠ GState.paused → resumeGame g now = g) := by
  refine ⟨?_, ?_, ?_⟩
  · intro g now h
    unfold startGame
    rw [if_pos h]
  · intro g h
    unfold pauseGame
    rw [if_pos h]
  · intro g now h
    unfold resumeGame
    rw [if_pos h]

/-- Witness for C10 at concrete states: `start` on a playing state and
`pause`/`resume` on an idle state are identities. -/
theorem lifecycle_noop_guards_witness :
    startGame ⟨GState.playing, mkPlayer 15 7, [], [], [], 1, 0, 0, 0, 0, 0, true⟩ 5
        = ⟨GState.playing, mkPlayer 15 7, [], [], [], 1, 0, 0, 0, 0, 0, true⟩ ∧
    pauseGame ⟨GState.idle, mkPlayer 15 7, [], [], [], 1, 0, 0, 0, 0, 0, false⟩
        = ⟨GState.idle, mkPlayer 15 7, [], [], [], 1, 0, 0, 0, 0, 0, false⟩ ∧
    resumeGame ⟨GState.idle, mkPlayer 15 7, [], [], [], 1, 0, 0, 0, 0, 0, false⟩ 5
        = ⟨GState.idle, mkPlayer 15 7, [], [], [], 1, 0, 0, 0, 0, 0, false⟩ :=
  ⟨lifecycle_noop_guards.1 _ 5 rfl,
   lifecycle_noop_guards.2.1 _ (by simp),
   lifecycle_noop_guards.2.2 _ 5 (by simp)⟩

end VampireSim
